import Mathlib

/-!
Shallow embedding of the HM64Updatescripts repository (five Python update
scripts) for checking its natural-language specification.

Each script is modelled as pure Lean functions over explicit state:
* the `version.json` file is an `Option` of a typed record (one schema per
  script, mirroring the JSON object each `save_local_version` writes);
* the `downloads` staging directory is `Option (List String)` — `none` means
  the directory does not exist, `some files` means it exists and holds `files`;
* every external call (HTTP query, download, zip extraction) is an input of
  the run: an `Except Unit _` response or a `Bool` success flag, and each
  orchestrator returns the list of external calls it performed, in order,
  alongside its result and final filesystem state.

String primitives of Python (`str.lower`, `str.strip`, `str.endswith`,
`sorted`, and the two `re` patterns of SoH-Updatescript-Lynks.py) are
re-implemented over `List Char` in the ASCII range, which covers every
string the scripts manipulate.
-/

/-- Python exceptions raised by the scripts.  `runtimeError` carries the
message of a `RuntimeError`; `noMatchingAsset` and `artifactNotFound` model
the two `RuntimeError`s whose messages embed data (the OS word, and the
target filename with the joined list of available filenames);
`transportError` models `requests` failures (`raise_for_status` or
connection errors); `extractError` models `zipfile` failures. -/
inductive Err where
  | runtimeError (msg : String)
  | noMatchingAsset (target_word : String)
  | artifactNotFound (target : String) (available : String)
  | transportError
  | extractError
deriving DecidableEq

/-- External calls an orchestrator can perform, in the order performed. -/
inductive Ev where
  | queryRelease
  | queryCommit
  | fetchBody
  | fetchHtml
  | download (url : String)
  | extract
deriving DecidableEq

instance {α β : Type} [DecidableEq α] [DecidableEq β] : DecidableEq (Except α β) :=
  fun a b =>
    match a, b with
    | .ok x, .ok y =>
      if h : x = y then isTrue (by rw [h])
      else isFalse (fun he => h (Except.ok.inj he))
    | .error x, .error y =>
      if h : x = y then isTrue (by rw [h])
      else isFalse (fun he => h (Except.error.inj he))
    | .ok _, .error _ => isFalse (fun he => Except.noConfusion he)
    | .error _, .ok _ => isFalse (fun he => Except.noConfusion he)

/-- Outcome of one orchestrator run: the Python return-or-exception, the
final filesystem state, and the external calls performed. -/
structure RunResult (σ : Type) where
  result : Except Err Unit
  state : σ
  events : List Ev
deriving DecidableEq

/-! Python string primitives, modelled over `List Char` (ASCII). -/

/-- ASCII model of Python `str.lower` on one character. -/
def lowerChar (c : Char) : Char :=
  if 65 ≤ c.toNat ∧ c.toNat ≤ 90 then Char.ofNat (c.toNat + 32) else c

/-- ASCII model of Python `str.lower`. -/
def pyLower (s : String) : String :=
  String.mk (s.data.map lowerChar)

/-- Whitespace class of Python `str.strip` and of the regex `\s`
(space, tab, newline, carriage return, vertical tab, form feed). -/
def isWsChar (c : Char) : Bool :=
  c.toNat = 32 || c.toNat = 9 || c.toNat = 10 || c.toNat = 13 ||
  c.toNat = 11 || c.toNat = 12

def stripChars (l : List Char) : List Char :=
  ((l.dropWhile isWsChar).reverse.dropWhile isWsChar).reverse

/-- Model of Python `str.strip()`. -/
def pyStrip (s : String) : String :=
  String.mk (stripChars s.data)

/-- Model of Python `str.endswith`. -/
def pyEndsWith (s suf : String) : Bool :=
  List.isSuffixOf suf.data s.data

/-- Code-point lexicographic order, as Python compares strings. -/
def lexLt : List Char → List Char → Bool
  | [], [] => false
  | [], _ :: _ => true
  | _ :: _, [] => false
  | a :: as, b :: bs =>
    if a.toNat < b.toNat then true
    else if b.toNat < a.toNat then false
    else lexLt as bs

def insertSorted (s : String) : List String → List String
  | [] => [s]
  | t :: ts => if lexLt t.data s.data then t :: insertSorted s ts else s :: t :: ts

/-- Model of Python `sorted` on a list of strings (insertion sort,
ascending code-point order). -/
def sortStrings (l : List String) : List String :=
  l.foldr insertSorted []

/-! A Python `dict` whose keys and values are strings, as an ordered
association list: `dinsert` is `d[k] = v` (overwrites the value of an
existing key in place, appends a new key at the end), `dlookup` is `d[k]`
as an `Option`. -/

def dinsert : List (String × String) → String → String → List (String × String)
  | [], k, v => [(k, v)]
  | p :: ps, k, v => if p.1 = k then (k, v) :: ps else p :: dinsert ps k v

def dlookup (d : List (String × String)) (k : String) : Option String :=
  match d with
  | [] => none
  | p :: ps => if p.1 = k then some p.2 else dlookup ps k

namespace Lynks

/-! SoH-Updatescript-Lynks.py -/

def REPO : String := "TheLynk/Shipwright"

def PR_NUMBER : Nat := 11

def ARTIFACT_OS_MAP : List (String × String) :=
  [("windows", "soh-windows.zip"), ("linux", "soh-linux.zip"), ("darwin", "soh-mac.zip")]

/-- Record written to version.json by this script. -/
structure VRec where
  download_url : String
  repo : String
  pr_number : Nat
deriving DecidableEq

def load_local_version (file : Option VRec) : Option VRec :=
  file

def save_local_version (download_url : String) (_file : Option VRec) : Option VRec :=
  some { download_url := download_url, repo := REPO, pr_number := PR_NUMBER }

/-- `get_os_key`, taking `platform.system()` as input. -/
def get_os_key (platformSystem : String) : Except Err String :=
  let sysname := pyLower platformSystem
  if (dlookup ARTIFACT_OS_MAP sysname).isSome then Except.ok sysname
  else Except.error (Err.runtimeError ("Unsupported OS: " ++ sysname))

/-! The regex scan of `extract_markdown_links_from_body`:
`\[([^\]]+)\]\(\s*(https?://[^\s)]+)\s*\)` with `re.IGNORECASE`, applied by
`finditer` (leftmost, non-overlapping matches).  For this pattern the regex
engine is deterministic: `[^\]]+` runs to the first `]`, `\s*` and
`[^\s)]+` are maximal runs, and no backtracking alternative can succeed, so
the scan below (try a match at each position, resume after a match) agrees
with `finditer`. -/

/-- Matches `pat` (given lowercase) case-insensitively as a prefix of `l`;
returns the consumed input characters and the rest. -/
def ciLit : List Char → List Char → Option (List Char × List Char)
  | [], l => some ([], l)
  | _ :: _, [] => none
  | p :: ps, c :: cs =>
    if lowerChar c = p then
      match ciLit ps cs with
      | some (m, r) => some (c :: m, r)
      | none => none
    else none

/-- One attempted markdown-link match at the head of the input; on success
returns (link text, url, rest of the input after the match). -/
def mdMatchAt (l : List Char) : Option (List Char × List Char × List Char) :=
  match l with
  | '[' :: rest =>
    let text := rest.takeWhile (fun c => c ≠ ']')
    let rest2 := rest.dropWhile (fun c => c ≠ ']')
    if text.isEmpty then none else
    match rest2 with
    | ']' :: '(' :: rest3 =>
      let rest4 := rest3.dropWhile isWsChar
      match ciLit "http".data rest4 with
      | none => none
      | some (m1, rest5) =>
        let sOpt : List Char × List Char :=
          match rest5 with
          | c :: cs => if lowerChar c = 's' then ([c], cs) else ([], rest5)
          | [] => ([], [])
        match ciLit "://".data sOpt.2 with
        | none => none
        | some (m3, rest7) =>
          let urlBody := rest7.takeWhile (fun c => !(isWsChar c) && c ≠ ')')
          let rest8 := rest7.dropWhile (fun c => !(isWsChar c) && c ≠ ')')
          if urlBody.isEmpty then none else
          match rest8.dropWhile isWsChar with
          | ')' :: rest10 => some (text, m1 ++ sOpt.1 ++ m3 ++ urlBody, rest10)
          | _ => none
    | _ => none
  | _ => none

/-- `finditer` over the markdown-link pattern: the list of (group 1,
group 2) raw matches in document order.  Fuelled by the input length; a
successful match always consumes at least one character, so the fuel never
runs out before the input does. -/
def mdScanAux : Nat → List Char → List (List Char × List Char)
  | 0, _ => []
  | _, [] => []
  | Nat.succ fuel, c :: cs =>
    match mdMatchAt (c :: cs) with
    | some (t, u, rest) => (t, u) :: mdScanAux fuel rest
    | none => mdScanAux fuel cs

def mdScan (body : String) : List (List Char × List Char) :=
  mdScanAux body.data.length body.data

/-- Test `re.match(r"^soh-(windows|linux|mac)\.zip$", text, re.IGNORECASE)`
on an already-stripped text. -/
def isSohZipText (text : String) : Bool :=
  let l := pyLower text
  l = "soh-windows.zip" || l = "soh-linux.zip" || l = "soh-mac.zip"

/-- Loop body of `extract_markdown_links_from_body`: strip both groups,
keep the link iff its text matches the soh-zip pattern, key it by the
lowercased text. -/
def mdNorm (m : List Char × List Char) : Option (String × String) :=
  let text := pyStrip (String.mk m.1)
  let url := pyStrip (String.mk m.2)
  if isSohZipText text then some (pyLower text, url) else none

/-- Folds a match list into a dict, inserting each normalised match. -/
def dfold (f : List Char × List Char → Option (String × String))
    (ms : List (List Char × List Char)) (d : List (String × String)) :
    List (String × String) :=
  ms.foldl
    (fun links m =>
      match f m with
      | some (k, v) => dinsert links k v
      | none => links)
    d

def extract_markdown_links_from_body (body : String) : List (String × String) :=
  dfold mdNorm (mdScan body) []

/-! The regex scan of `extract_nightly_links_from_html`:
`(soh-(?:windows|linux|mac)\.zip)[\s\S]{0,200}?href=["'](https://nightly\.link/[^\s"'>]+)["']`
with `re.IGNORECASE`.  The gap `[\s\S]{0,200}?` is lazy, so the engine
takes the smallest gap (0 to 200 characters) after which the `href=` part
matches; the `href=` part itself is deterministic as above. -/

def isQuoteChar (c : Char) : Bool :=
  c.toNat = 34 || c.toNat = 39

def matchSohName (l : List Char) : Option (List Char × List Char) :=
  match ciLit "soh-windows.zip".data l with
  | some r => some r
  | none =>
    match ciLit "soh-linux.zip".data l with
    | some r => some r
    | none => ciLit "soh-mac.zip".data l

/-- The `href=["'](https://nightly\.link/[^\s"'>]+)["']` part, tried at the
head of the input; returns (group 2, rest after the closing quote). -/
def hrefMatchAt (l : List Char) : Option (List Char × List Char) :=
  match ciLit "href=".data l with
  | none => none
  | some (_, r1) =>
    match r1 with
    | q :: r2 =>
      if isQuoteChar q then
        match ciLit "https://nightly.link/".data r2 with
        | none => none
        | some (m1, r3) =>
          let urlBody := r3.takeWhile (fun c => !(isWsChar c) && !(isQuoteChar c) && c ≠ '>')
          let r4 := r3.dropWhile (fun c => !(isWsChar c) && !(isQuoteChar c) && c ≠ '>')
          if urlBody.isEmpty then none else
          match r4 with
          | q2 :: r5 => if isQuoteChar q2 then some (m1 ++ urlBody, r5) else none
          | [] => none
      else none
    | [] => none

/-- The lazy gap: try `hrefMatchAt` after dropping 0, 1, ..., `fuel`
characters (fuel starts at 200). -/
def findHrefAux : Nat → List Char → Option (List Char × List Char)
  | fuel, l =>
    match hrefMatchAt l with
    | some r => some r
    | none =>
      match fuel, l with
      | Nat.succ f, _ :: cs => findHrefAux f cs
      | _, _ => none

def htmlMatchAt (l : List Char) : Option (List Char × List Char × List Char) :=
  match matchSohName l with
  | none => none
  | some (name, rest) =>
    match findHrefAux 200 rest with
    | none => none
    | some (url, rest2) => some (name, url, rest2)

def htmlScanAux : Nat → List Char → List (List Char × List Char)
  | 0, _ => []
  | _, [] => []
  | Nat.succ fuel, c :: cs =>
    match htmlMatchAt (c :: cs) with
    | some (n, u, rest) => (n, u) :: htmlScanAux fuel rest
    | none => htmlScanAux fuel cs

def htmlScan (html : String) : List (List Char × List Char) :=
  htmlScanAux html.data.length html.data

/-- Loop body of `extract_nightly_links_from_html`:
`links[m.group(1).strip().lower()] = m.group(2).strip()`. -/
def htmlNorm (m : List Char × List Char) : Option (String × String) :=
  some (pyLower (pyStrip (String.mk m.1)), pyStrip (String.mk m.2))

def extract_nightly_links_from_html (html : String) : List (String × String) :=
  dfold htmlNorm (htmlScan html) []

/-- Inputs of one run of `install_or_update_from_pr`: the platform name and
the outcome of each external call the run may perform (`bodyResp` for
`fetch_pr_body`, `htmlResp` for `fetch_pr_html`, success flags for
`download_file` and `extract_zip`). -/
structure Env where
  platform : String
  bodyResp : Except Unit String
  htmlResp : Except Unit String
  downloadOk : Bool
  extractOk : Bool

/-- Filesystem state the script mutates: version.json and downloads/. -/
structure St where
  version : Option VRec
  staging : Option (List String)
deriving DecidableEq

/-- The links dict a run of `install_or_update_from_pr` resolves: the
markdown links of the PR body when the body is non-empty and yields links,
otherwise the links scraped from the PR HTML (empty when that fetch
failed).  This is the resolution phase of the orchestrator, written with
the same expressions. -/
def resolvedLinks (env : Env) : List (String × String) :=
  let body :=
    match env.bodyResp with
    | .ok b => b
    | .error _ => ""
  let links0 := if body = "" then [] else extract_markdown_links_from_body body
  if links0 = [] then
    match env.htmlResp with
    | .ok html => extract_nightly_links_from_html html
    | .error _ => []
  else links0

/-- Whether a run of `install_or_update_from_pr` consults the HTML
fallback: true exactly when the PR body yields no markdown links. -/
def usedFallback (env : Env) : Bool :=
  let body :=
    match env.bodyResp with
    | .ok b => b
    | .error _ => ""
  let links0 := if body = "" then [] else extract_markdown_links_from_body body
  if links0 = [] then true else false

def install_or_update_from_pr (env : Env) (s : St) : RunResult St :=
  match get_os_key env.platform with
  | .error e => ⟨.error e, s, []⟩
  | .ok os_key =>
    let target_filename := pyLower ((dlookup ARTIFACT_OS_MAP os_key).getD "")
    let localRec := load_local_version s.version
    let body :=
      match env.bodyResp with
      | .ok b => b
      | .error _ => ""
    let links0 := if body = "" then [] else extract_markdown_links_from_body body
    let links :=
      if links0 = [] then
        match env.htmlResp with
        | .ok html => extract_nightly_links_from_html html
        | .error _ => []
      else links0
    let evs := if links0 = [] then [Ev.fetchBody, Ev.fetchHtml] else [Ev.fetchBody]
    if links = [] then
      ⟨.error (.runtimeError "No soh-<os>.zip artifact links found in PR body or HTML."), s, evs⟩
    else
      match dlookup links target_filename with
      | none =>
        ⟨.error (.artifactNotFound target_filename
            (String.intercalate ", " (sortStrings (links.map Prod.fst)))), s, evs⟩
      | some download_url =>
        if (match localRec with
            | some r => r.download_url == download_url
            | none => false) then
          ⟨.ok (), s, evs⟩
        else
          let sDir : St := { s with staging := some (s.staging.getD []) }
          if env.downloadOk then
            let s1 : St := { sDir with staging := some (s.staging.getD [] ++ [target_filename]) }
            if env.extractOk then
              ⟨.ok (), { version := save_local_version download_url s1.version, staging := none },
                evs ++ [Ev.download download_url, Ev.extract]⟩
            else
              ⟨.error .extractError, s1, evs ++ [Ev.download download_url, Ev.extract]⟩
          else
            ⟨.error .transportError, sDir, evs ++ [Ev.download download_url]⟩

end Lynks

/-- One downloadable file of a GitHub release. -/
structure Asset where
  name : String
  browser_download_url : String
deriving DecidableEq

/-- The fields of a GitHub release the scripts read. -/
structure Release where
  tag_name : String
  assets : List Asset
deriving DecidableEq

namespace TwoShip

/-! 2ship-Updatescript.py -/

def REPO : String := "HarbourMasters/2ship2harkinian"

/-- Record written to version.json by this script. -/
structure VRec where
  installed_version : String
  repo : String
deriving DecidableEq

def load_local_version (file : Option VRec) : Option VRec :=
  file

def save_local_version (version : String) (_file : Option VRec) : Option VRec :=
  some { installed_version := version, repo := REPO }

/-- `get_os_target_word`, taking `platform.system()` as input. -/
def get_os_target_word (platformSystem : String) : Except Err String :=
  let sys := pyLower platformSystem
  if sys = "windows" then Except.ok "Win64"
  else if sys = "linux" then Except.ok "Linux"
  else if sys = "darwin" then Except.ok "Mac"
  else Except.error (Err.runtimeError ("Unsupported OS: " ++ sys))

/-- Inputs of one run of `install_or_update`: the platform name, the
outcome of `get_latest_release`, and success flags for `download_asset`
and `extract_zip`. -/
structure Env where
  platform : String
  latestRelease : Except Unit Release
  downloadOk : Bool
  extractOk : Bool

structure St where
  version : Option VRec
  staging : Option (List String)
deriving DecidableEq

def install_or_update (env : Env) (s : St) : RunResult St :=
  let localRec := load_local_version s.version
  let installed : Option String :=
    match localRec with
    | some r => some r.installed_version
    | none => none
  match env.latestRelease with
  | .error _ => ⟨.error .transportError, s, [Ev.queryRelease]⟩
  | .ok release =>
    let latest := release.tag_name
    let assets := release.assets
    if installed = some latest then
      ⟨.ok (), s, [Ev.queryRelease]⟩
    else
      match get_os_target_word env.platform with
      | .error e => ⟨.error e, s, [Ev.queryRelease]⟩
      | .ok tw =>
        let target_word := pyLower tw
        let candidates :=
          assets.filter (fun a => pyEndsWith (pyLower a.name) ("-" ++ target_word ++ ".zip"))
        match candidates with
        | [] => ⟨.error (.noMatchingAsset target_word), s, [Ev.queryRelease]⟩
        | asset :: _ =>
          let sDir : St := { s with staging := some (s.staging.getD []) }
          if env.downloadOk then
            let s1 : St := { sDir with staging := some (s.staging.getD [] ++ [asset.name]) }
            if env.extractOk then
              ⟨.ok (), { version := save_local_version latest s1.version, staging := none },
                [Ev.queryRelease, Ev.download asset.browser_download_url, Ev.extract]⟩
            else
              ⟨.error .extractError, s1,
                [Ev.queryRelease, Ev.download asset.browser_download_url, Ev.extract]⟩
          else
            ⟨.error .transportError, sDir,
              [Ev.queryRelease, Ev.download asset.browser_download_url]⟩

end TwoShip

namespace SohNightly

/-! SoH-Updatescript-Nightly.py -/

def REPO : String := "HarbourMasters/Shipwright"

def BRANCH : String := "develop"

def NIGHTLY_BASE : String :=
  "https://nightly.link/" ++ REPO ++ "/workflows/generate-builds/" ++ BRANCH

/-- Record written to version.json by this script. -/
structure VRec where
  latest_commit : String
deriving DecidableEq

def load_local_version (file : Option VRec) : Option VRec :=
  file

def save_local_version (commit_sha : String) (_file : Option VRec) : Option VRec :=
  some { latest_commit := commit_sha }

/-- `get_os_zip_name`, taking `platform.system()` as input. -/
def get_os_zip_name (platformSystem : String) : Except Err String :=
  let sys := pyLower platformSystem
  if sys = "windows" then Except.ok "soh-windows.zip"
  else if sys = "linux" then Except.ok "soh-linux.zip"
  else if sys = "darwin" then Except.ok "soh-mac.zip"
  else Except.error (Err.runtimeError ("Unsupported OS: " ++ sys))

/-- Inputs of one run of `install_latest_nightly`: the platform name, the
outcome of `get_latest_commit_sha`, and success flags for
`download_nightly` and `extract_zip`. -/
structure Env where
  platform : String
  latestSha : Except Unit String
  downloadOk : Bool
  extractOk : Bool

structure St where
  version : Option VRec
  staging : Option (List String)
deriving DecidableEq

def install_latest_nightly (env : Env) (s : St) : RunResult St :=
  let localRec := load_local_version s.version
  let installed_commit : Option String :=
    match localRec with
    | some r => some r.latest_commit
    | none => none
  match env.latestSha with
  | .error _ => ⟨.error .transportError, s, [Ev.queryCommit]⟩
  | .ok latest_commit =>
    if installed_commit = some latest_commit then
      ⟨.ok (), { s with staging := none }, [Ev.queryCommit]⟩
    else
      match get_os_zip_name env.platform with
      | .error e => ⟨.error e, s, [Ev.queryCommit]⟩
      | .ok zip_name =>
        let sDir : St := { s with staging := some (s.staging.getD []) }
        if env.downloadOk then
          let s1 : St := { sDir with staging := some (s.staging.getD [] ++ [zip_name]) }
          if env.extractOk then
            ⟨.ok (), { version := save_local_version latest_commit s1.version, staging := none },
              [Ev.queryCommit, Ev.download (NIGHTLY_BASE ++ "/" ++ zip_name), Ev.extract]⟩
          else
            ⟨.error .extractError, s1,
              [Ev.queryCommit, Ev.download (NIGHTLY_BASE ++ "/" ++ zip_name), Ev.extract]⟩
        else
          ⟨.error .transportError, sDir,
            [Ev.queryCommit, Ev.download (NIGHTLY_BASE ++ "/" ++ zip_name)]⟩

end SohNightly

namespace Spaghetti

/-! Spaghettikart-Updatescript.py -/

def REPO : String := "HarbourMasters/Spaghettikart"

/-- `get_os_tag`, taking `platform.system()` as input. -/
def get_os_tag (platformSystem : String) : Except Err String :=
  let sys := pyLower platformSystem
  if sys = "windows" then Except.ok "windows"
  else if sys = "linux" then Except.ok "linux-old"
  else if sys = "darwin" then
    Except.error (Err.runtimeError "⚠️ Spaghettikart has no macOS build available.")
  else Except.error (Err.runtimeError ("Unsupported OS: " ++ sys))

/-- `get_latest_any_release`, taking the outcome of the releases-listing
request as input (`.error` models a `requests` failure). -/
def get_latest_any_release (resp : Except Unit (List Release)) : Except Err Release :=
  match resp with
  | .error _ => Except.error Err.transportError
  | .ok releases =>
    match releases with
    | [] => Except.error (Err.runtimeError "No releases or pre-releases found.")
    | r :: _ => Except.ok r

end Spaghetti

namespace SpagNightly

/-! Spaghettikart-Updatescript-Nightly.py -/

/-- `get_os_zip_name`, taking `platform.system()` as input. -/
def get_os_zip_name (platformSystem : String) : Except Err String :=
  let sys := pyLower platformSystem
  if sys = "linux" then Except.ok "spaghetti-linux-x64.zip"
  else if sys = "windows" then Except.ok "spaghetti-windows.zip"
  else if sys = "darwin" then Except.ok "spaghetti-mac-intel-x64.zip"
  else Except.error (Err.runtimeError ("Unsupported OS: " ++ sys))

end SpagNightly

/-- The URL attached to the last match (in document order) whose normalised
key is `k`, or `none` when no match has key `k`.  Used to state that the
parsers let the last occurrence of a filename win. -/
def lastMatchUrl (f : List Char × List Char → Option (String × String)) :
    List (List Char × List Char) → String → Option String
  | [], _ => none
  | m :: ms, k =>
    match lastMatchUrl f ms k with
    | some u => some u
    | none =>
      match f m with
      | some (k2, u) => if k2 = k then some u else none
      | none => none

/-! Concrete inputs used by witnesses and counterexamples. -/

/-- An up-to-date 2ship state whose staging directory still holds a file. -/
def c2st : TwoShip.St :=
  { version := some { installed_version := "v1", repo := TwoShip.REPO },
    staging := some ["junk.zip"] }

/-- A 2ship run environment whose remote tag equals the installed one. -/
def c2env : TwoShip.Env :=
  { platform := "Linux", latestRelease := .ok ⟨"v1", []⟩,
    downloadOk := true, extractOk := true }

/-- A Lynks run environment on darwin whose PR body is empty and whose
rendered page holds the mac artifact link. -/
def c2lenv : Lynks.Env :=
  { platform := "Darwin", bodyResp := .ok "",
    htmlResp := .ok "soh-mac.zip build href=\"https://nightly.link/m/n\"",
    downloadOk := true, extractOk := true }

/-- A Lynks state already holding that mac artifact URL, with a stale file
in the staging directory. -/
def c2lst : Lynks.St :=
  { version := some ⟨"https://nightly.link/m/n", Lynks.REPO, Lynks.PR_NUMBER⟩,
    staging := some ["leftover.zip"] }

/-- A 2ship run environment on an unsupported platform whose release query
succeeds. -/
def c3env : TwoShip.Env :=
  { platform := "plan9", latestRelease := .ok ⟨"v2", []⟩,
    downloadOk := true, extractOk := true }

/-- A Lynks run environment where the PR-body fetch fails but the rendered
page holds a linux artifact link. -/
def c5env : Lynks.Env :=
  { platform := "Linux", bodyResp := .error (),
    htmlResp := .ok "soh-linux.zip here href=\"https://nightly.link/a/b\"",
    downloadOk := true, extractOk := true }

/-- A 2ship run environment that fails at extraction. -/
def c1env : TwoShip.Env :=
  { platform := "Windows",
    latestRelease := .ok ⟨"v2", [⟨"2ship-Win64.zip", "https://dl/w"⟩]⟩,
    downloadOk := true, extractOk := false }

/-- A PR body holding exactly the linux markdown link. -/
def c6body : String := "[soh-linux.zip](https://nightly.link/x/y/soh-linux.zip)"

def c6env : Lynks.Env :=
  { platform := "Linux", bodyResp := .ok c6body, htmlResp := .error (),
    downloadOk := true, extractOk := true }

/-- A rendered PR page holding a mac artifact link. -/
def c7html : String := "<a>soh-mac.zip</a> artifact is here href=\"https://nightly.link/a/b\" ok"

def c7env : Lynks.Env :=
  { platform := "Darwin", bodyResp := .ok "no markdown links here",
    htmlResp := .ok c7html, downloadOk := true, extractOk := true }

/-- A PR body in which the linux filename matches twice with two URLs. -/
def c10body : String := "[soh-linux.zip](https://first/a) then [SOH-LINUX.ZIP](https://second/b)"

/-! Theorems.  One theorem per claim of the specification check, with
shared helper lemmas before them. -/

/-- C8: for every identifier value, `save_local_version` followed by
`load_local_version` returns a record equal to the one saved in all
persisted fields, for each of the three version.json schemas
(installed_version/repo, latest_commit, download_url/repo/pr_number). -/
theorem C8_round_trip :
    (∀ (v : String) (f : Option TwoShip.VRec),
       TwoShip.load_local_version (TwoShip.save_local_version v f) =
         some { installed_version := v, repo := TwoShip.REPO }) ∧
    (∀ (sha : String) (f : Option SohNightly.VRec),
       SohNightly.load_local_version (SohNightly.save_local_version sha f) =
         some { latest_commit := sha }) ∧
    (∀ (u : String) (f : Option Lynks.VRec),
       Lynks.load_local_version (Lynks.save_local_version u f) =
         some { download_url := u, repo := Lynks.REPO, pr_number := Lynks.PR_NUMBER }) :=
  ⟨fun _ _ => rfl, fun _ _ => rfl, fun _ _ => rfl⟩

/-- C9: `get_latest_any_release` fails with the error message
"No releases or pre-releases found." when the releases listing is empty,
and otherwise returns the first element of the listing. -/
theorem C9_latest_any_release :
    (∀ resp : Except Unit (List Release), resp = .ok [] →
       Spaghetti.get_latest_any_release resp =
         .error (.runtimeError "No releases or pre-releases found.")) ∧
    (∀ (resp : Except Unit (List Release)) (r : Release) (rs : List Release),
       resp = .ok (r :: rs) → Spaghetti.get_latest_any_release resp = .ok r) := by
  constructor
  · rintro resp rfl; rfl
  · rintro resp r rs rfl; rfl

theorem C9_witness :
    Spaghetti.get_latest_any_release (.ok []) =
      .error (.runtimeError "No releases or pre-releases found.") ∧
    Spaghetti.get_latest_any_release (.ok [⟨"v1", []⟩]) = .ok ⟨"v1", []⟩ :=
  ⟨C9_latest_any_release.1 _ rfl, C9_latest_any_release.2 _ _ _ rfl⟩

/-- C4 fails as stated: in Spaghettikart-Updatescript.py, the supported
platform name darwin does not map to an OS key but raises. -/
theorem C4_counterexample :
    Spaghetti.get_os_tag "Darwin" =
      .error (.runtimeError "⚠️ Spaghettikart has no macOS build available.") := by
  decide

/-- C4 amended: OS-key resolution is a total fixed lookup on the lowercased
platform name in 2ship, both nightly scripts and the Lynks script, with the
darwin value being the mac variant, and every platform name outside
windows/linux/darwin fails with the unsupported-OS error; but in
Spaghettikart-Updatescript.py, `get_os_tag` raises for darwin (no macOS
build) instead of mapping it. -/
theorem C4_amended_os_map :
    ∀ p : String,
      (pyLower p = "windows" →
        TwoShip.get_os_target_word p = .ok "Win64" ∧
        SohNightly.get_os_zip_name p = .ok "soh-windows.zip" ∧
        SpagNightly.get_os_zip_name p = .ok "spaghetti-windows.zip" ∧
        Lynks.get_os_key p = .ok "windows" ∧
        Spaghetti.get_os_tag p = .ok "windows") ∧
      (pyLower p = "linux" →
        TwoShip.get_os_target_word p = .ok "Linux" ∧
        SohNightly.get_os_zip_name p = .ok "soh-linux.zip" ∧
        SpagNightly.get_os_zip_name p = .ok "spaghetti-linux-x64.zip" ∧
        Lynks.get_os_key p = .ok "linux" ∧
        Spaghetti.get_os_tag p = .ok "linux-old") ∧
      (pyLower p = "darwin" →
        TwoShip.get_os_target_word p = .ok "Mac" ∧
        SohNightly.get_os_zip_name p = .ok "soh-mac.zip" ∧
        SpagNightly.get_os_zip_name p = .ok "spaghetti-mac-intel-x64.zip" ∧
        Lynks.get_os_key p = .ok "darwin" ∧
        Spaghetti.get_os_tag p =
          .error (.runtimeError "⚠️ Spaghettikart has no macOS build available.")) ∧
      (pyLower p ∉ (["windows", "linux", "darwin"] : List String) →
        TwoShip.get_os_target_word p =
          .error (.runtimeError ("Unsupported OS: " ++ pyLower p)) ∧
        SohNightly.get_os_zip_name p =
          .error (.runtimeError ("Unsupported OS: " ++ pyLower p)) ∧
        SpagNightly.get_os_zip_name p =
          .error (.runtimeError ("Unsupported OS: " ++ pyLower p)) ∧
        Lynks.get_os_key p =
          .error (.runtimeError ("Unsupported OS: " ++ pyLower p)) ∧
        Spaghetti.get_os_tag p =
          .error (.runtimeError ("Unsupported OS: " ++ pyLower p))) := by
  intro p
  refine ⟨fun h => ?_, fun h => ?_, fun h => ?_, fun h => ?_⟩
  · simp only [TwoShip.get_os_target_word, SohNightly.get_os_zip_name,
      SpagNightly.get_os_zip_name, Lynks.get_os_key, Spaghetti.get_os_tag, h]
    refine ⟨by decide, by decide, by decide, by decide, by decide⟩
  · simp only [TwoShip.get_os_target_word, SohNightly.get_os_zip_name,
      SpagNightly.get_os_zip_name, Lynks.get_os_key, Spaghetti.get_os_tag, h]
    refine ⟨by decide, by decide, by decide, by decide, by decide⟩
  · simp only [TwoShip.get_os_target_word, SohNightly.get_os_zip_name,
      SpagNightly.get_os_zip_name, Lynks.get_os_key, Spaghetti.get_os_tag, h]
    refine ⟨by decide, by decide, by decide, by decide, by decide⟩
  · simp only [List.mem_cons, List.mem_singleton] at h
    push_neg at h
    obtain ⟨h1, h2, h3⟩ := h
    have h3' : pyLower p ≠ "darwin" := by simpa using h3
    simp only [TwoShip.get_os_target_word, SohNightly.get_os_zip_name,
      SpagNightly.get_os_zip_name, Lynks.get_os_key, Spaghetti.get_os_tag,
      Lynks.ARTIFACT_OS_MAP, dlookup]
    simp [h1, h2, h3', Ne.symm h1, Ne.symm h2, Ne.symm h3']

theorem C4_witness :
    pyLower "Windows" = "windows" ∧
    TwoShip.get_os_target_word "Windows" = .ok "Win64" ∧
    pyLower "plan9" ∉ (["windows", "linux", "darwin"] : List String) ∧
    TwoShip.get_os_target_word "plan9" =
      .error (.runtimeError ("Unsupported OS: " ++ pyLower "plan9")) :=
  ⟨by decide, ((C4_amended_os_map "Windows").1 (by decide)).1, by decide,
   ((C4_amended_os_map "plan9").2.2.2 (by decide)).1⟩

/-- Helper: 2ship OS resolution fails on platforms outside the fixed map. -/
theorem two_ship_os_unsupported (p : String)
    (h : pyLower p ∉ (["windows", "linux", "darwin"] : List String)) :
    TwoShip.get_os_target_word p =
      .error (.runtimeError ("Unsupported OS: " ++ pyLower p)) := by
  simp only [List.mem_cons, List.mem_singleton] at h
  push_neg at h
  obtain ⟨h1, h2, h3⟩ := h
  have h3' : pyLower p ≠ "darwin" := by simpa using h3
  simp [TwoShip.get_os_target_word, h1, h2, h3']

/-- Helper: SoH nightly OS resolution fails on platforms outside the map. -/
theorem soh_nightly_os_unsupported (p : String)
    (h : pyLower p ∉ (["windows", "linux", "darwin"] : List String)) :
    SohNightly.get_os_zip_name p =
      .error (.runtimeError ("Unsupported OS: " ++ pyLower p)) := by
  simp only [List.mem_cons, List.mem_singleton] at h
  push_neg at h
  obtain ⟨h1, h2, h3⟩ := h
  have h3' : pyLower p ≠ "darwin" := by simpa using h3
  simp [SohNightly.get_os_zip_name, h1, h2, h3']

/-- C2 fails as stated: an up-to-date 2ship run performs no download and no
extract call, but it does not clear the staging directory, which still
holds junk.zip at the end of the run. -/
theorem C2_counterexample :
    (TwoShip.install_or_update c2env c2st).result = .ok () ∧
    (TwoShip.install_or_update c2env c2st).events = [Ev.queryRelease] ∧
    (TwoShip.install_or_update c2env c2st).state.staging = some ["junk.zip"] ∧
    ¬((TwoShip.install_or_update c2env c2st).state.staging = none ∨
      (TwoShip.install_or_update c2env c2st).state.staging = some []) := by
  decide

/-- C2 amended: when the stored identifier equals the freshly queried
remote identifier, each orchestrator performs zero download and zero
extract calls; `install_latest_nightly` additionally clears the staging
directory, while `install_or_update` and `install_or_update_from_pr`
return with the whole filesystem state (staging included) unchanged. -/
theorem C2_amended_up_to_date :
    (∀ (env : TwoShip.Env) (s : TwoShip.St) (rel : Release),
       env.latestRelease = .ok rel →
       (match s.version with
        | some r => some r.installed_version
        | none => none) = some rel.tag_name →
       TwoShip.install_or_update env s = ⟨.ok (), s, [Ev.queryRelease]⟩) ∧
    (∀ (env : SohNightly.Env) (s : SohNightly.St) (sha : String),
       env.latestSha = .ok sha →
       (match s.version with
        | some r => some r.latest_commit
        | none => none) = some sha →
       SohNightly.install_latest_nightly env s =
         ⟨.ok (), { s with staging := none }, [Ev.queryCommit]⟩) ∧
    (∀ (env : Lynks.Env) (s : Lynks.St) (k u : String) (vr : Lynks.VRec),
       Lynks.get_os_key env.platform = .ok k →
       dlookup (Lynks.resolvedLinks env)
           (pyLower ((dlookup Lynks.ARTIFACT_OS_MAP k).getD "")) = some u →
       s.version = some vr →
       vr.download_url = u →
       Lynks.install_or_update_from_pr env s =
         ⟨.ok (), s,
           if Lynks.usedFallback env then [Ev.fetchBody, Ev.fetchHtml]
           else [Ev.fetchBody]⟩) := by
  refine ⟨?_, ?_, ?_⟩
  · intro env s rel h1 h2
    simp only [TwoShip.install_or_update, TwoShip.load_local_version, h1]
    rw [if_pos h2]
  · intro env s sha h1 h2
    simp only [SohNightly.install_latest_nightly, SohNightly.load_local_version, h1]
    rw [if_pos h2]
  · intro env s k u vr hkey hlook hv hurl
    subst hurl
    unfold Lynks.resolvedLinks at hlook
    unfold Lynks.usedFallback
    simp only [Lynks.install_or_update_from_pr, hkey, Lynks.load_local_version, hv]
    (repeat' split) <;> simp_all [dlookup]

theorem C2_witness :
    (TwoShip.install_or_update c2env c2st = ⟨.ok (), c2st, [Ev.queryRelease]⟩) ∧
    (Lynks.install_or_update_from_pr c2lenv c2lst =
      ⟨.ok (), c2lst, [Ev.fetchBody, Ev.fetchHtml]⟩) :=
  ⟨C2_amended_up_to_date.1 c2env c2st ⟨"v1", []⟩ rfl (by decide),
   C2_amended_up_to_date.2.2 c2lenv c2lst "darwin" "https://nightly.link/m/n"
     ⟨"https://nightly.link/m/n", Lynks.REPO, Lynks.PR_NUMBER⟩
     (by decide) (by decide) rfl rfl⟩

/-- C3 fails as stated: on an unsupported platform, the 2ship run raises
the unsupported-OS error only after the release query has been issued. -/
theorem C3_counterexample :
    (TwoShip.install_or_update c3env { version := none, staging := none }).result =
      .error (.runtimeError "Unsupported OS: plan9") ∧
    Ev.queryRelease ∈
      (TwoShip.install_or_update c3env { version := none, staging := none }).events := by
  decide

/-- C3 amended: only `install_or_update_from_pr` resolves the OS key before
any network call, so there an unsupported platform fails with zero external
calls; in `install_or_update` and `install_latest_nightly` the remote
release/commit query is issued first, and an unsupported platform (when the
run is not already up to date) fails after that query but before any
download or extract call. -/
theorem C3_amended_unsupported_os :
    (∀ (env : Lynks.Env) (s : Lynks.St),
       dlookup Lynks.ARTIFACT_OS_MAP (pyLower env.platform) = none →
       Lynks.install_or_update_from_pr env s =
         ⟨.error (.runtimeError ("Unsupported OS: " ++ pyLower env.platform)), s, []⟩) ∧
    (∀ (env : TwoShip.Env) (s : TwoShip.St) (rel : Release),
       env.latestRelease = .ok rel →
       (match s.version with
        | some r => some r.installed_version
        | none => none) ≠ some rel.tag_name →
       pyLower env.platform ∉ (["windows", "linux", "darwin"] : List String) →
       TwoShip.install_or_update env s =
         ⟨.error (.runtimeError ("Unsupported OS: " ++ pyLower env.platform)), s,
           [Ev.queryRelease]⟩) ∧
    (∀ (env : SohNightly.Env) (s : SohNightly.St) (sha : String),
       env.latestSha = .ok sha →
       (match s.version with
        | some r => some r.latest_commit
        | none => none) ≠ some sha →
       pyLower env.platform ∉ (["windows", "linux", "darwin"] : List String) →
       SohNightly.install_latest_nightly env s =
         ⟨.error (.runtimeError ("Unsupported OS: " ++ pyLower env.platform)), s,
           [Ev.queryCommit]⟩) := by
  refine ⟨?_, ?_, ?_⟩
  · intro env s h
    simp [Lynks.install_or_update_from_pr, Lynks.get_os_key, h]
  · intro env s rel h1 h2 h3
    simp only [TwoShip.install_or_update, TwoShip.load_local_version, h1]
    rw [if_neg h2]
    simp [two_ship_os_unsupported env.platform h3]
  · intro env s sha h1 h2 h3
    simp only [SohNightly.install_latest_nightly, SohNightly.load_local_version, h1]
    rw [if_neg h2]
    simp [soh_nightly_os_unsupported env.platform h3]

theorem C3_witness :
    Lynks.install_or_update_from_pr
      { platform := "plan9", bodyResp := .ok "", htmlResp := .ok "",
        downloadOk := true, extractOk := true }
      { version := none, staging := none } =
    ⟨.error (.runtimeError ("Unsupported OS: " ++ pyLower "plan9")),
      { version := none, staging := none }, []⟩ :=
  C3_amended_unsupported_os.1
    { platform := "plan9", bodyResp := .ok "", htmlResp := .ok "",
      downloadOk := true, extractOk := true }
    { version := none, staging := none } (by decide)

/-- C5 fails as stated: a failing PR-body query is caught and recovered
from — the Lynks run falls back to scraping the PR HTML and completes
successfully. -/
theorem C5_counterexample :
    c5env.bodyResp = .error () ∧
    (Lynks.install_or_update_from_pr c5env { version := none, staging := none }).result =
      .ok () ∧
    Ev.fetchHtml ∈
      (Lynks.install_or_update_from_pr c5env { version := none, staging := none }).events := by
  decide

set_option maxHeartbeats 2000000 in
set_option maxRecDepth 4096 in
/-- C5 amended: errors from the release/commit query, the download and the
extraction abort the run immediately with InstalledState untouched, in all
three orchestrators; but in `install_or_update_from_pr` a failing PR-body
query is caught and the HTML-scraping fallback is attempted, and a failing
HTML query is also caught, surfacing as the no-links RuntimeError. -/
theorem C5_amended_propagation :
    (∀ (env : Lynks.Env) (s : Lynks.St) (f : String),
       dlookup Lynks.ARTIFACT_OS_MAP (pyLower env.platform) = some f →
       env.bodyResp = .error () →
       Ev.fetchHtml ∈ (Lynks.install_or_update_from_pr env s).events) ∧
    (∀ (env : Lynks.Env) (s : Lynks.St) (f : String),
       dlookup Lynks.ARTIFACT_OS_MAP (pyLower env.platform) = some f →
       env.bodyResp = .error () →
       env.htmlResp = .error () →
       Lynks.install_or_update_from_pr env s =
         ⟨.error (.runtimeError "No soh-<os>.zip artifact links found in PR body or HTML."),
           s, [Ev.fetchBody, Ev.fetchHtml]⟩) ∧
    (∀ (env : TwoShip.Env) (s : TwoShip.St),
       env.latestRelease = .error () →
       TwoShip.install_or_update env s = ⟨.error .transportError, s, [Ev.queryRelease]⟩) ∧
    (∀ (env : SohNightly.Env) (s : SohNightly.St),
       env.latestSha = .error () →
       SohNightly.install_latest_nightly env s =
         ⟨.error .transportError, s, [Ev.queryCommit]⟩) ∧
    (∀ (env : TwoShip.Env) (s : TwoShip.St) (u : String),
       env.downloadOk = false →
       Ev.download u ∈ (TwoShip.install_or_update env s).events →
       (TwoShip.install_or_update env s).result = .error .transportError ∧
       Ev.extract ∉ (TwoShip.install_or_update env s).events ∧
       (TwoShip.install_or_update env s).state.version = s.version) ∧
    (∀ (env : SohNightly.Env) (s : SohNightly.St) (u : String),
       env.downloadOk = false →
       Ev.download u ∈ (SohNightly.install_latest_nightly env s).events →
       (SohNightly.install_latest_nightly env s).result = .error .transportError ∧
       Ev.extract ∉ (SohNightly.install_latest_nightly env s).events ∧
       (SohNightly.install_latest_nightly env s).state.version = s.version) ∧
    (∀ (env : Lynks.Env) (s : Lynks.St) (u : String),
       env.downloadOk = false →
       Ev.download u ∈ (Lynks.install_or_update_from_pr env s).events →
       (Lynks.install_or_update_from_pr env s).result = .error .transportError ∧
       Ev.extract ∉ (Lynks.install_or_update_from_pr env s).events ∧
       (Lynks.install_or_update_from_pr env s).state.version = s.version) ∧
    (∀ (env : TwoShip.Env) (s : TwoShip.St),
       env.extractOk = false →
       Ev.extract ∈ (TwoShip.install_or_update env s).events →
       (TwoShip.install_or_update env s).result = .error .extractError ∧
       (TwoShip.install_or_update env s).state.version = s.version) ∧
    (∀ (env : SohNightly.Env) (s : SohNightly.St),
       env.extractOk = false →
       Ev.extract ∈ (SohNightly.install_latest_nightly env s).events →
       (SohNightly.install_latest_nightly env s).result = .error .extractError ∧
       (SohNightly.install_latest_nightly env s).state.version = s.version) ∧
    (∀ (env : Lynks.Env) (s : Lynks.St),
       env.extractOk = false →
       Ev.extract ∈ (Lynks.install_or_update_from_pr env s).events →
       (Lynks.install_or_update_from_pr env s).result = .error .extractError ∧
       (Lynks.install_or_update_from_pr env s).state.version = s.version) := by
  refine ⟨?_, ?_, ?_, ?_, ?_, ?_, ?_, ?_, ?_, ?_⟩
  · intro env s f h hb
    have hkey : Lynks.get_os_key env.platform = .ok (pyLower env.platform) := by
      simp [Lynks.get_os_key, h]
    simp only [Lynks.install_or_update_from_pr, hkey, Lynks.load_local_version, hb]
    (repeat' split) <;> first
      | contradiction
      | simp_all
  · intro env s f h hb hh
    have hkey : Lynks.get_os_key env.platform = .ok (pyLower env.platform) := by
      simp [Lynks.get_os_key, h]
    simp only [Lynks.install_or_update_from_pr, hkey, Lynks.load_local_version, hb, hh]
    simp
  · intro env s h
    simp [TwoShip.install_or_update, TwoShip.load_local_version, h]
  · intro env s h
    simp [SohNightly.install_latest_nightly, SohNightly.load_local_version, h]
  · intro env s u h hmem
    obtain ⟨p, lrel, dOk, eOk⟩ := env
    dsimp only at h hmem
    subst h
    simp only [TwoShip.install_or_update, TwoShip.load_local_version] at hmem ⊢
    cases lrel <;> (repeat' split at hmem) <;> (repeat' split) <;> simp_all
  · intro env s u h hmem
    obtain ⟨p, lsha, dOk, eOk⟩ := env
    dsimp only at h hmem
    subst h
    simp only [SohNightly.install_latest_nightly, SohNightly.load_local_version] at hmem ⊢
    cases lsha <;> (repeat' split at hmem) <;> (repeat' split) <;> simp_all
  · intro env s u h hmem
    obtain ⟨p, br, hr, dOk, eOk⟩ := env
    dsimp only at h hmem
    subst h
    simp only [Lynks.install_or_update_from_pr, Lynks.load_local_version] at hmem ⊢
    cases br <;> cases hr <;> (repeat' split) <;> first
      | contradiction
      | simp_all
  · intro env s h hmem
    obtain ⟨p, lrel, dOk, eOk⟩ := env
    dsimp only at h hmem
    subst h
    simp only [TwoShip.install_or_update, TwoShip.load_local_version] at hmem ⊢
    cases lrel <;> cases dOk <;> (repeat' split at hmem) <;> (repeat' split) <;> simp_all
  · intro env s h hmem
    obtain ⟨p, lsha, dOk, eOk⟩ := env
    dsimp only at h hmem
    subst h
    simp only [SohNightly.install_latest_nightly, SohNightly.load_local_version] at hmem ⊢
    cases lsha <;> cases dOk <;> (repeat' split at hmem) <;> (repeat' split) <;> simp_all
  · intro env s h hmem
    obtain ⟨p, br, hr, dOk, eOk⟩ := env
    dsimp only at h hmem
    subst h
    simp only [Lynks.install_or_update_from_pr, Lynks.load_local_version] at hmem ⊢
    cases br <;> cases hr <;> cases dOk <;> (repeat' split) <;> first
      | contradiction
      | simp_all

theorem C5_witness :
    Ev.fetchHtml ∈
      (Lynks.install_or_update_from_pr c5env { version := none, staging := none }).events :=
  C5_amended_propagation.1 c5env { version := none, staging := none } "soh-linux.zip"
    (by decide) (by decide)

set_option maxHeartbeats 2000000 in
set_option maxRecDepth 4096 in
/-- C1: in all three orchestrators, a run that ends in an error leaves the
persisted version record exactly as it was, and the version record changes
only on a run that succeeds after performing the extract call with a
successful extraction — the state is written only after extract_zip
completed. -/
theorem C1_state_written_only_after_extract :
    (∀ (env : TwoShip.Env) (s : TwoShip.St),
       (∀ e, (TwoShip.install_or_update env s).result = .error e →
          (TwoShip.install_or_update env s).state.version = s.version) ∧
       ((TwoShip.install_or_update env s).state.version ≠ s.version →
          (TwoShip.install_or_update env s).result = .ok () ∧
          Ev.extract ∈ (TwoShip.install_or_update env s).events ∧
          env.extractOk = true)) ∧
    (∀ (env : SohNightly.Env) (s : SohNightly.St),
       (∀ e, (SohNightly.install_latest_nightly env s).result = .error e →
          (SohNightly.install_latest_nightly env s).state.version = s.version) ∧
       ((SohNightly.install_latest_nightly env s).state.version ≠ s.version →
          (SohNightly.install_latest_nightly env s).result = .ok () ∧
          Ev.extract ∈ (SohNightly.install_latest_nightly env s).events ∧
          env.extractOk = true)) ∧
    (∀ (env : Lynks.Env) (s : Lynks.St),
       (∀ e, (Lynks.install_or_update_from_pr env s).result = .error e →
          (Lynks.install_or_update_from_pr env s).state.version = s.version) ∧
       ((Lynks.install_or_update_from_pr env s).state.version ≠ s.version →
          (Lynks.install_or_update_from_pr env s).result = .ok () ∧
          Ev.extract ∈ (Lynks.install_or_update_from_pr env s).events ∧
          env.extractOk = true)) := by
  refine ⟨?_, ?_, ?_⟩
  · intro env s
    obtain ⟨p, lrel, dOk, eOk⟩ := env
    simp only [TwoShip.install_or_update, TwoShip.load_local_version,
      TwoShip.save_local_version]
    cases lrel <;> cases dOk <;> cases eOk <;> (repeat' split) <;> simp_all
  · intro env s
    obtain ⟨p, lsha, dOk, eOk⟩ := env
    simp only [SohNightly.install_latest_nightly, SohNightly.load_local_version,
      SohNightly.save_local_version]
    cases lsha <;> cases dOk <;> cases eOk <;> (repeat' split) <;> simp_all
  · intro env s
    obtain ⟨p, br, hr, dOk, eOk⟩ := env
    simp only [Lynks.install_or_update_from_pr, Lynks.load_local_version,
      Lynks.save_local_version]
    cases br <;> cases hr <;> cases dOk <;> cases eOk <;> (repeat' split) <;> first
      | contradiction
      | simp_all

theorem C1_witness :
    (TwoShip.install_or_update c1env { version := none, staging := none }).result =
      .error .extractError ∧
    (TwoShip.install_or_update c1env { version := none, staging := none }).state.version =
      none :=
  ⟨by decide,
   (C1_state_written_only_after_extract.1 c1env { version := none, staging := none }).1
     Err.extractError (by decide)⟩

/-- C6: when the PR body parses to exactly the linux markdown link, the run
on linux resolves that URL from the body alone: the HTML fallback is never
fetched, and the run either is already up to date or downloads exactly the
URL found in the body. -/
theorem C6_body_link_resolution :
    ∀ (env : Lynks.Env) (s : Lynks.St) (body u : String),
      pyLower env.platform = "linux" →
      env.bodyResp = .ok body →
      body ≠ "" →
      Lynks.extract_markdown_links_from_body body = [("soh-linux.zip", u)] →
      Ev.fetchHtml ∉ (Lynks.install_or_update_from_pr env s).events ∧
      ((Lynks.install_or_update_from_pr env s).events = [Ev.fetchBody] ∧
         (Lynks.install_or_update_from_pr env s).result = .ok () ∨
       Ev.download u ∈ (Lynks.install_or_update_from_pr env s).events) := by
  intro env s body u hplat hbody hb hlinks
  have hkey : Lynks.get_os_key env.platform = .ok "linux" := by
    simp only [Lynks.get_os_key, hplat]
    decide
  have htf : pyLower ((dlookup Lynks.ARTIFACT_OS_MAP "linux").getD "") = "soh-linux.zip" := by
    decide
  have hid : pyLower "soh-linux.zip" = "soh-linux.zip" := by decide
  simp only [Lynks.install_or_update_from_pr, hkey, Lynks.load_local_version, hbody,
    hb, hlinks, htf, hid, if_neg hb]
  (repeat' split) <;> simp_all [dlookup]

theorem C6_witness :
    Ev.fetchHtml ∉ (Lynks.install_or_update_from_pr c6env
      { version := none, staging := none }).events :=
  (C6_body_link_resolution c6env { version := none, staging := none } c6body
    "https://nightly.link/x/y/soh-linux.zip" (by decide) rfl (by decide) (by decide)).1

/-! Helper lemmas for the parser claims: behaviour of `dinsert`, of the
dict fold, and canonical shape of the names the scanners capture. -/

theorem dlookup_dinsert_self (d : List (String × String)) (k v : String) :
    dlookup (dinsert d k v) k = some v := by
  induction d with
  | nil => simp [dinsert, dlookup]
  | cons p ps ih =>
    by_cases hp : p.1 = k
    · simp [dinsert, hp, dlookup]
    · simp [dinsert, hp, dlookup, ih]

theorem dlookup_dinsert_ne (d : List (String × String)) (k k2 v : String)
    (h : k ≠ k2) :
    dlookup (dinsert d k2 v) k = dlookup d k := by
  have h2 : ¬k2 = k := Ne.symm h
  induction d with
  | nil => simp [dinsert, dlookup, h2]
  | cons p ps ih =>
    by_cases hp : p.1 = k2
    · have hpk : ¬p.1 = k := by rw [hp]; exact h2
      simp [dinsert, hp, dlookup, h2, hpk]
    · simp [dinsert, hp, dlookup, ih]

theorem dfold_cons (f : List Char × List Char → Option (String × String))
    (m : List Char × List Char) (ms : List (List Char × List Char))
    (d : List (String × String)) :
    Lynks.dfold f (m :: ms) d =
      Lynks.dfold f ms
        (match f m with
         | some (k, v) => dinsert d k v
         | none => d) := rfl

theorem dlookup_dfold (f : List Char × List Char → Option (String × String)) :
    ∀ (ms : List (List Char × List Char)) (d : List (String × String)) (k : String),
      dlookup (Lynks.dfold f ms d) k =
        match lastMatchUrl f ms k with
        | some u => some u
        | none => dlookup d k := by
  intro ms
  induction ms with
  | nil => intro d k; rfl
  | cons m ms ih =>
    intro d k
    rw [dfold_cons, ih]
    cases hL : lastMatchUrl f ms k with
    | some u => simp [lastMatchUrl, hL]
    | none =>
      cases hf : f m with
      | none => simp [lastMatchUrl, hL, hf]
      | some kv =>
        obtain ⟨k2, u⟩ := kv
        by_cases hk : k2 = k
        · subst hk
          simp [lastMatchUrl, hL, hf, dlookup_dinsert_self]
        · simp [lastMatchUrl, hL, hf, hk,
            dlookup_dinsert_ne d k k2 u (fun he => hk he.symm)]

theorem mem_keys_dinsert (d : List (String × String)) (k2 v : String) :
    ∀ k, k ∈ (dinsert d k2 v).map Prod.fst → k ∈ d.map Prod.fst ∨ k = k2 := by
  induction d with
  | nil =>
    intro k h
    simp [dinsert] at h
    exact Or.inr h
  | cons p ps ih =>
    intro k h
    by_cases hp : p.1 = k2
    · simp only [dinsert, if_pos hp, List.map_cons, List.mem_cons] at h
      rcases h with h | h
      · exact Or.inr h
      · exact Or.inl (by simp [h])
    · simp only [dinsert, if_neg hp, List.map_cons, List.mem_cons] at h
      rcases h with h | h
      · exact Or.inl (by simp [h])
      · rcases ih k h with h1 | h1
        · exact Or.inl (by simp [h1])
        · exact Or.inr h1

theorem mem_keys_dfold (f : List Char × List Char → Option (String × String)) :
    ∀ (ms : List (List Char × List Char)) (d : List (String × String)) (k : String),
      k ∈ (Lynks.dfold f ms d).map Prod.fst →
      k ∈ d.map Prod.fst ∨ ∃ m, m ∈ ms ∧ ∃ u, f m = some (k, u) := by
  intro ms
  induction ms with
  | nil => intro d k h; exact Or.inl h
  | cons m ms ih =>
    intro d k h
    rw [dfold_cons] at h
    rcases ih _ k h with h1 | ⟨m2, hm2, u, hu⟩
    · cases hf : f m with
      | none => rw [hf] at h1; exact Or.inl h1
      | some kv =>
        obtain ⟨k2, u⟩ := kv
        rw [hf] at h1
        rcases mem_keys_dinsert d k2 u k h1 with h2 | h2
        · exact Or.inl h2
        · exact Or.inr ⟨m, List.mem_cons_self m ms, u, by rw [hf, h2]⟩
    · exact Or.inr ⟨m2, List.mem_cons_of_mem m hm2, u, hu⟩

theorem mdNorm_key_mem (m : List Char × List Char) (k u : String)
    (h : Lynks.mdNorm m = some (k, u)) :
    k ∈ (["soh-windows.zip", "soh-linux.zip", "soh-mac.zip"] : List String) := by
  unfold Lynks.mdNorm at h
  by_cases hs : Lynks.isSohZipText (pyStrip (String.mk m.1))
  · rw [if_pos hs] at h
    have hk : k = pyLower (pyStrip (String.mk m.1)) := by
      have := Option.some.inj h
      simp at this
      exact this.1.symm
    unfold Lynks.isSohZipText at hs
    simp only [Bool.or_eq_true, decide_eq_true_eq] at hs
    rw [hk]
    rcases hs with (h1 | h1) | h1 <;> simp [h1]
  · rw [if_neg hs] at h
    cases h

theorem ciLit_map_lower :
    ∀ (pat l m r : List Char), Lynks.ciLit pat l = some (m, r) →
      m.map lowerChar = pat := by
  intro pat
  induction pat with
  | nil =>
    intro l m r h
    simp [Lynks.ciLit] at h
    simp [h.1]
  | cons p ps ih =>
    intro l m r h
    cases l with
    | nil => simp [Lynks.ciLit] at h
    | cons c cs =>
      rw [Lynks.ciLit] at h
      by_cases hc : lowerChar c = p
      · rw [if_pos hc] at h
        cases hm : Lynks.ciLit ps cs with
        | none => rw [hm] at h; cases h
        | some t =>
          obtain ⟨m0, r0⟩ := t
          rw [hm] at h
          have := Option.some.inj h
          simp at this
          obtain ⟨h1, _⟩ := this
          subst h1
          simp [List.map_cons, hc, ih cs m0 r0 hm]
      · rw [if_neg hc] at h
        cases h

theorem lowerChar_ws_eq (c : Char) (h : isWsChar c = true) : lowerChar c = c := by
  unfold isWsChar at h
  simp only [Bool.or_eq_true, decide_eq_true_eq] at h
  unfold lowerChar
  rw [if_neg]
  intro hc
  rcases h with ((((h1 | h1) | h1) | h1) | h1) | h1 <;> omega

theorem isWs_false_of_lower (c : Char) (h : isWsChar (lowerChar c) = false) :
    isWsChar c = false := by
  by_cases hw : isWsChar c
  · rw [lowerChar_ws_eq c hw] at h
    exact h
  · simpa using hw

theorem stripChars_eq_self (m : List Char) (h : ∀ c ∈ m, isWsChar c = false) :
    stripChars m = m := by
  unfold stripChars
  have d1 : m.dropWhile isWsChar = m := by
    cases m with
    | nil => rfl
    | cons c cs => simp [List.dropWhile, h c (List.mem_cons_self c cs)]
  rw [d1]
  have d2 : m.reverse.dropWhile isWsChar = m.reverse := by
    cases hrev : m.reverse with
    | nil => rfl
    | cons c cs =>
      have hc : c ∈ m := by
        rw [← List.mem_reverse, hrev]
        exact List.mem_cons_self c cs
      simp [List.dropWhile, h c hc]
  rw [d2, List.reverse_reverse]

theorem ciLit_canonical (pat : String) (l n r : List Char)
    (hws : ∀ c ∈ pat.data, isWsChar c = false)
    (h : Lynks.ciLit pat.data l = some (n, r)) :
    pyLower (pyStrip (String.mk n)) = pat := by
  have hmap : n.map lowerChar = pat.data := ciLit_map_lower pat.data l n r h
  have hnws : ∀ c ∈ n, isWsChar c = false := by
    intro c hc
    apply isWs_false_of_lower
    apply hws
    rw [← hmap]
    exact List.mem_map_of_mem lowerChar hc
  have hstrip : stripChars n = n := stripChars_eq_self n hnws
  have hcalc : pyLower (pyStrip (String.mk n)) = String.mk ((stripChars n).map lowerChar) := rfl
  rw [hcalc, hstrip, hmap]

theorem matchSohName_canonical (l n r : List Char)
    (h : Lynks.matchSohName l = some (n, r)) :
    pyLower (pyStrip (String.mk n)) ∈
      (["soh-windows.zip", "soh-linux.zip", "soh-mac.zip"] : List String) := by
  unfold Lynks.matchSohName at h
  cases h1 : Lynks.ciLit "soh-windows.zip".data l with
  | some t =>
    obtain ⟨n0, r0⟩ := t
    rw [h1] at h
    have := Option.some.inj h
    simp at this
    obtain ⟨hn, _⟩ := this
    subst hn
    simp [ciLit_canonical "soh-windows.zip" l n0 r0 (by decide) h1]
  | none =>
    rw [h1] at h
    cases h2 : Lynks.ciLit "soh-linux.zip".data l with
    | some t =>
      obtain ⟨n0, r0⟩ := t
      rw [h2] at h
      have := Option.some.inj h
      simp at this
      obtain ⟨hn, _⟩ := this
      subst hn
      simp [ciLit_canonical "soh-linux.zip" l n0 r0 (by decide) h2]
    | none =>
      rw [h2] at h
      have h3 : Lynks.ciLit "soh-mac.zip".data l = some (n, r) := h
      simp [ciLit_canonical "soh-mac.zip" l n r (by decide) h3]

theorem htmlScan_name_mem :
    ∀ (fuel : Nat) (l : List Char) (m : List Char × List Char),
      m ∈ Lynks.htmlScanAux fuel l →
      pyLower (pyStrip (String.mk m.1)) ∈
        (["soh-windows.zip", "soh-linux.zip", "soh-mac.zip"] : List String) := by
  intro fuel
  induction fuel with
  | zero => intro l m h; simp [Lynks.htmlScanAux] at h
  | succ f ih =>
    intro l m h
    cases l with
    | nil => simp [Lynks.htmlScanAux] at h
    | cons c cs =>
      rw [Lynks.htmlScanAux] at h
      cases hma : Lynks.htmlMatchAt (c :: cs) with
      | none =>
        simp only [hma] at h
        exact ih cs m h
      | some t =>
        obtain ⟨n, u, rest⟩ := t
        simp only [hma] at h
        rcases List.mem_cons.mp h with h1 | h2
        · subst h1
          unfold Lynks.htmlMatchAt at hma
          cases hsn : Lynks.matchSohName (c :: cs) with
          | none =>
            simp only [hsn] at hma
            exact Option.noConfusion hma
          | some t2 =>
            obtain ⟨n0, r1⟩ := t2
            simp only [hsn] at hma
            cases hfh : Lynks.findHrefAux 200 r1 with
            | none =>
              simp only [hfh] at hma
              exact Option.noConfusion hma
            | some t3 =>
              obtain ⟨url, r2⟩ := t3
              simp only [hfh] at hma
              have := Option.some.inj hma
              simp at this
              obtain ⟨hn, _⟩ := this
              subst hn
              exact matchSohName_canonical (c :: cs) n0 r1 hsn
        · exact ih rest m h2

/-- C10: both PR-link parsers return a dict whose keys all are lowercased
soh-(windows|linux|mac).zip filenames, and looking a key up in the result
yields the URL of the last match with that (case-insensitively normalised)
filename in document order — the last match wins. -/
theorem C10_parser_keys_and_last_match :
    (∀ (body k : String),
       k ∈ (Lynks.extract_markdown_links_from_body body).map Prod.fst →
       k ∈ (["soh-windows.zip", "soh-linux.zip", "soh-mac.zip"] : List String)) ∧
    (∀ (html k : String),
       k ∈ (Lynks.extract_nightly_links_from_html html).map Prod.fst →
       k ∈ (["soh-windows.zip", "soh-linux.zip", "soh-mac.zip"] : List String)) ∧
    (∀ (body k : String),
       dlookup (Lynks.extract_markdown_links_from_body body) k =
         lastMatchUrl Lynks.mdNorm (Lynks.mdScan body) k) ∧
    (∀ (html k : String),
       dlookup (Lynks.extract_nightly_links_from_html html) k =
         lastMatchUrl Lynks.htmlNorm (Lynks.htmlScan html) k) := by
  refine ⟨?_, ?_, ?_, ?_⟩
  · intro body k h
    unfold Lynks.extract_markdown_links_from_body at h
    rcases mem_keys_dfold Lynks.mdNorm (Lynks.mdScan body) [] k h with h1 | ⟨m, _, u, hf⟩
    · simp at h1
    · exact mdNorm_key_mem m k u hf
  · intro html k h
    unfold Lynks.extract_nightly_links_from_html at h
    rcases mem_keys_dfold Lynks.htmlNorm (Lynks.htmlScan html) [] k h with h1 | ⟨m, hm, u, hf⟩
    · simp at h1
    · unfold Lynks.htmlNorm at hf
      have := Option.some.inj hf
      simp at this
      obtain ⟨h1, _⟩ := this
      rw [← h1]
      exact htmlScan_name_mem html.data.length html.data m hm
  · intro body k
    unfold Lynks.extract_markdown_links_from_body
    rw [dlookup_dfold]
    cases hX : lastMatchUrl Lynks.mdNorm (Lynks.mdScan body) k <;> simp [dlookup]
  · intro html k
    unfold Lynks.extract_nightly_links_from_html
    rw [dlookup_dfold]
    cases hX : lastMatchUrl Lynks.htmlNorm (Lynks.htmlScan html) k <;> simp [dlookup]

theorem C10_witness :
    "soh-linux.zip" ∈ (Lynks.extract_markdown_links_from_body c10body).map Prod.fst ∧
    "soh-linux.zip" ∈ (["soh-windows.zip", "soh-linux.zip", "soh-mac.zip"] : List String) ∧
    dlookup (Lynks.extract_markdown_links_from_body c10body) "soh-linux.zip" =
      lastMatchUrl Lynks.mdNorm (Lynks.mdScan c10body) "soh-linux.zip" ∧
    dlookup (Lynks.extract_markdown_links_from_body c10body) "soh-linux.zip" =
      some "https://second/b" :=
  ⟨by decide,
   C10_parser_keys_and_last_match.1 c10body "soh-linux.zip" (by decide),
   C10_parser_keys_and_last_match.2.2.1 c10body "soh-linux.zip",
   by decide⟩

/-- C7: when the body yields no matching markdown link, the run scrapes the
PR HTML, and a mac filename resolved there is used (fallback works); and
when neither source yields the OS-specific filename, the run fails with the
artifact-not-found error listing, comma-joined and sorted, the filenames
that were found. -/
theorem C7_html_fallback :
    (∀ (env : Lynks.Env) (s : Lynks.St) (body html u : String),
       pyLower env.platform = "darwin" →
       env.bodyResp = .ok body →
       env.htmlResp = .ok html →
       Lynks.extract_markdown_links_from_body body = [] →
       dlookup (Lynks.extract_nightly_links_from_html html) "soh-mac.zip" = some u →
       Ev.fetchHtml ∈ (Lynks.install_or_update_from_pr env s).events ∧
       (Ev.download u ∈ (Lynks.install_or_update_from_pr env s).events ∨
        (Lynks.install_or_update_from_pr env s).result = .ok ())) ∧
    (∀ (env : Lynks.Env) (s : Lynks.St) (body html : String),
       pyLower env.platform = "darwin" →
       env.bodyResp = .ok body →
       env.htmlResp = .ok html →
       Lynks.extract_markdown_links_from_body body = [] →
       Lynks.extract_nightly_links_from_html html ≠ [] →
       dlookup (Lynks.extract_nightly_links_from_html html) "soh-mac.zip" = none →
       Lynks.install_or_update_from_pr env s =
         ⟨.error (.artifactNotFound "soh-mac.zip"
             (String.intercalate ", "
               (sortStrings ((Lynks.extract_nightly_links_from_html html).map Prod.fst)))),
           s, [Ev.fetchBody, Ev.fetchHtml]⟩) ∧
    (∀ (env : Lynks.Env) (s : Lynks.St) (body : String),
       pyLower env.platform = "darwin" →
       env.bodyResp = .ok body →
       body ≠ "" →
       Lynks.extract_markdown_links_from_body body ≠ [] →
       dlookup (Lynks.extract_markdown_links_from_body body) "soh-mac.zip" = none →
       Lynks.install_or_update_from_pr env s =
         ⟨.error (.artifactNotFound "soh-mac.zip"
             (String.intercalate ", "
               (sortStrings ((Lynks.extract_markdown_links_from_body body).map Prod.fst)))),
           s, [Ev.fetchBody]⟩) := by
  have htf : pyLower ((dlookup Lynks.ARTIFACT_OS_MAP "darwin").getD "") = "soh-mac.zip" := by
    decide
  refine ⟨?_, ?_, ?_⟩
  · intro env s body html u hplat hbody hh hmd hlookup
    have hkey : Lynks.get_os_key env.platform = .ok "darwin" := by
      simp only [Lynks.get_os_key, hplat]
      decide
    have hl0 : (if body = "" then ([] : List (String × String))
        else Lynks.extract_markdown_links_from_body body) = [] := by
      by_cases hb0 : body = "" <;> simp [hb0, hmd]
    have hne : Lynks.extract_nightly_links_from_html html ≠ [] := by
      intro he
      rw [he] at hlookup
      simp [dlookup] at hlookup
    simp only [Lynks.install_or_update_from_pr, hkey, Lynks.load_local_version, hbody,
      hh, hl0, htf, hlookup]
    (repeat' split) <;> simp_all
  · intro env s body html hplat hbody hh hmd hne hnone
    have hkey : Lynks.get_os_key env.platform = .ok "darwin" := by
      simp only [Lynks.get_os_key, hplat]
      decide
    have hl0 : (if body = "" then ([] : List (String × String))
        else Lynks.extract_markdown_links_from_body body) = [] := by
      by_cases hb0 : body = "" <;> simp [hb0, hmd]
    simp only [Lynks.install_or_update_from_pr, hkey, Lynks.load_local_version, hbody,
      hh, hl0, htf]
    simp [hne]
    rw [hnone]
  · intro env s body hplat hbody hb hne hnone
    have hkey : Lynks.get_os_key env.platform = .ok "darwin" := by
      simp only [Lynks.get_os_key, hplat]
      decide
    simp only [Lynks.install_or_update_from_pr, hkey, Lynks.load_local_version, hbody,
      if_neg hb, htf]
    simp [hne]
    rw [hnone]

theorem C7_witness :
    Ev.fetchHtml ∈ (Lynks.install_or_update_from_pr c7env
      { version := none, staging := none }).events ∧
    (Ev.download "https://nightly.link/a/b" ∈ (Lynks.install_or_update_from_pr c7env
      { version := none, staging := none }).events ∨
     (Lynks.install_or_update_from_pr c7env
      { version := none, staging := none }).result = .ok ()) :=
  C7_html_fallback.1 c7env { version := none, staging := none }
    "no markdown links here" c7html "https://nightly.link/a/b"
    (by decide) rfl rfl (by decide) (by decide)


